import Mathlib

/-!
Verification of the YAMLPath query engine of fast-yaml.

The repository ships the query engine as a compiled WebAssembly artifact;
the Rust sources of the engine (the path lexer/parser, the predicate
evaluator and the path evaluator) are not part of the source tree, only
their JavaScript callers and tests are.  Following the specification,
the engine is modelled here from the spec text (sections 3, 4.1, 4.2
and 4.3); the JavaScript binding layer (error wrapping, lazy WASM module
loading) is embedded directly from `js/cli.js` / the ESM index module.
-/

namespace FastYaml

/-- Modelled from the spec: the `DocumentValue` tagged union of section 3
(the Rust value model is not in the source tree).  `Null`, `Bool`, `Int`,
`Float`, `Str`, `Sequence` (ordered list) and `Mapping` (ordered list of
key/value pairs, keys unique by equality).  The `f64` payload of `Float`
is modelled as a rational number, which is exact on every numeric literal
appearing in the spec and tests. -/
inductive DocumentValue where
  | null : DocumentValue
  | bool (b : Bool) : DocumentValue
  | int (i : Int) : DocumentValue
  | float (q : Rat) : DocumentValue
  | str (s : String) : DocumentValue
  | sequence (xs : List DocumentValue) : DocumentValue
  | mapping (ps : List (DocumentValue × DocumentValue)) : DocumentValue

/-- Look up a string key in the pair list of a mapping, front to back. -/
def lookupKey (name : String) : List (DocumentValue × DocumentValue) → Option DocumentValue
  | [] => none
  | (k, v) :: ps =>
    match k with
    | .str s => if s = name then some v else lookupKey name ps
    | _ => lookupKey name ps

/-- Modelled from the spec: member access by exact key (section 4.3,
`Child(name)`): a mapping yields the value stored under the string key
`name`; every other variant (and a mapping lacking the key) yields
nothing. -/
def mappingGet (name : String) (v : DocumentValue) : Option DocumentValue :=
  match v with
  | .mapping ps => lookupKey name ps
  | _ => none

/-- Modelled from the spec: the children of a node for wildcard expansion
(section 4.3, `Wildcard`): all mapping values in insertion order, all
sequence elements in order, nothing for the other variants. -/
def childValues : DocumentValue → List DocumentValue
  | .mapping ps => ps.map Prod.snd
  | .sequence xs => xs
  | _ => []

mutual

/-- Modelled from the spec: pre-order traversal (node before children) of
a node and all its descendants — mapping values and sequence elements,
recursively (section 4.3, `RecursiveDescent`). -/
def preorder : DocumentValue → List DocumentValue
  | .sequence xs => .sequence xs :: preorderList xs
  | .mapping ps => .mapping ps :: preorderPairs ps
  | v => [v]

/-- Pre-order traversal of a list of sibling subtrees, left to right. -/
def preorderList : List DocumentValue → List DocumentValue
  | [] => []
  | x :: xs => preorder x ++ preorderList xs

/-- Pre-order traversal of the value subtrees of a mapping pair list. -/
def preorderPairs : List (DocumentValue × DocumentValue) → List DocumentValue
  | [] => []
  | (_, v) :: ps => preorder v ++ preorderPairs ps

end

mutual

/-- Number of document positions in a tree (the node itself plus all
mapping-value and sequence-element descendants). -/
def nodeCount : DocumentValue → Nat
  | .sequence xs => 1 + nodeCountList xs
  | .mapping ps => 1 + nodeCountPairs ps
  | _ => 1

/-- Total number of document positions in a list of sibling subtrees. -/
def nodeCountList : List DocumentValue → Nat
  | [] => 0
  | x :: xs => nodeCount x + nodeCountList xs

/-- Total number of document positions under the values of a pair list. -/
def nodeCountPairs : List (DocumentValue × DocumentValue) → Nat
  | [] => 0
  | (_, v) :: ps => nodeCount v + nodeCountPairs ps

end

/-- Numeric view of a value: `Int` and `Float` compare numerically
regardless of exact variant (spec section 4.2); other variants are not
numeric. -/
def asNum : DocumentValue → Option Rat
  | .int i => some (i : Rat)
  | .float q => some q
  | _ => none

mutual

/-- Modelled from the spec: structural equality used by `==` / `!=`
(section 4.2), with the numeric variants identified by value, so
`Int 3 == Float 3` holds. -/
def valueEqB : DocumentValue → DocumentValue → Bool
  | .null, .null => true
  | .bool a, .bool b => a = b
  | .int a, .int b => a = b
  | .float a, .float b => a = b
  | .int a, .float b => (a : Rat) = b
  | .float a, .int b => a = (b : Rat)
  | .str a, .str b => a = b
  | .sequence a, .sequence b => seqEqB a b
  | .mapping a, .mapping b => pairsEqB a b
  | _, _ => false

/-- Elementwise structural equality of two sequences. -/
def seqEqB : List DocumentValue → List DocumentValue → Bool
  | [], [] => true
  | a :: as_, b :: bs => valueEqB a b && seqEqB as_ bs
  | _, _ => false

/-- Pairwise structural equality of two mapping pair lists. -/
def pairsEqB : List (DocumentValue × DocumentValue) →
    List (DocumentValue × DocumentValue) → Bool
  | [], [] => true
  | (ka, va) :: as_, (kb, vb) :: bs =>
    valueEqB ka kb && valueEqB va vb && pairsEqB as_ bs
  | _, _ => false

end

/-- The six comparison operators of the predicate sub-language. -/
inductive CmpOp where
  | eq | ne | lt | le | gt | ge

/-- Ordering comparison on rationals, for the four ordering operators;
`eq` / `ne` are never routed here. -/
def ratCmp (op : CmpOp) (x y : Rat) : Bool :=
  match op with
  | .lt => x < y
  | .le => x ≤ y
  | .gt => x > y
  | .ge => x ≥ y
  | .eq => x = y
  | .ne => x ≠ y

/-- Ordering comparison on strings (lexicographic, spec section 4.2). -/
def strCmp (op : CmpOp) (x y : String) : Bool :=
  match op with
  | .lt => x < y
  | .le => x < y || x = y
  | .gt => y < x
  | .ge => y < x || x = y
  | .eq => x = y
  | .ne => x ≠ y

/-- Ordering comparison on booleans with `false < true` (section 4.2). -/
def boolCmp (op : CmpOp) (x y : Bool) : Bool :=
  match op with
  | .lt => !x && y
  | .le => !x || y
  | .gt => x && !y
  | .ge => x || !y
  | .eq => x = y
  | .ne => x ≠ y

/-- Modelled from the spec: comparison semantics of section 4.2.
`==` / `!=` are numeric-aware structural (in)equality; the ordering
operators compare numerically when both operands are numeric,
lexicographically on two strings, by `false < true` on two booleans, and
yield `false` across incompatible variants. -/
def compareValues (op : CmpOp) (a b : DocumentValue) : Bool :=
  match op with
  | .eq => valueEqB a b
  | .ne => !valueEqB a b
  | _ =>
    match asNum a, asNum b with
    | some x, some y => ratCmp op x y
    | _, _ =>
      match a, b with
      | .str x, .str y => strCmp op x y
      | .bool x, .bool y => boolCmp op x y
      | _, _ => false

/-- Result of resolving a predicate operand: a value, or the special
"absent" marker of spec section 4.2. -/
inductive Resolved where
  | absent : Resolved
  | value (v : DocumentValue) : Resolved

/-- Modelled from the spec: `FieldRef` resolution relative to the
candidate node `@` (section 4.2).  Each path component is a mapping
member access; a missing key or a wrong variant (e.g. indexing into a
scalar) makes the whole reference absent, never an error. -/
def resolveField : List String → DocumentValue → Resolved
  | [], v => .value v
  | n :: rest, v =>
    match mappingGet n v with
    | some w => resolveField rest w
    | none => .absent

/-- An operand of a predicate comparison: a field reference relative to
`@`, or a scalar literal. -/
inductive PredOperand where
  | fieldRef (path : List String) : PredOperand
  | lit (v : DocumentValue) : PredOperand

/-- Resolve an operand against the candidate node. -/
def evalOperand (c : DocumentValue) : PredOperand → Resolved
  | .fieldRef p => resolveField p c
  | .lit v => .value v

/-- Modelled from the spec: a comparison with an absent operand is
`false` for every operator, including `!=` (section 4.2). -/
def evalCompare (op : CmpOp) : Resolved → Resolved → Bool
  | .value a, .value b => compareValues op a b
  | _, _ => false

/-- The predicate expression tree of spec section 3: comparisons combined
with `&&` and `||`. -/
inductive PredicateAst where
  | compare (op : CmpOp) (l r : PredOperand) : PredicateAst
  | and (l r : PredicateAst) : PredicateAst
  | or (l r : PredicateAst) : PredicateAst

/-- Modelled from the spec: predicate evaluation against a candidate node
(section 4.2); both boolean sides are evaluated in full. -/
def evalPredicate (c : DocumentValue) : PredicateAst → Bool
  | .compare op l r => evalCompare op (evalOperand c l) (evalOperand c r)
  | .and a b => evalPredicate c a && evalPredicate c b
  | .or a b => evalPredicate c a || evalPredicate c b

/-- Modelled from the spec: one traversal step of a parsed path
(section 3, `PathAst`).  `recursive none` is recursive descent with a
wildcard, `recursive (some name)` with a specific member name. -/
inductive Step where
  | root : Step
  | child (name : String) : Step
  | wildcard : Step
  | index (i : Nat) : Step
  | filter (p : PredicateAst) : Step
  | recursive (target : Option String) : Step

/-- Modelled from the spec: the emissions of a recursive-descent step
from one active node (section 4.3): visit the node and all descendants in
pre-order; for a specific name emit the value of that key at every
mapping containing it, for a wildcard emit every mapping value and
sequence element encountered. -/
def recursiveCollect (target : Option String) (v : DocumentValue) : List DocumentValue :=
  match target with
  | some name => (preorder v).filterMap (mappingGet name)
  | none => (preorder v).flatMap childValues

/-- Modelled from the spec: how one step maps the ordered active set to
the next active set (section 4.3).  Nodes that do not match (wrong
variant, missing key, out-of-range index) contribute nothing, never an
error. -/
def evalStep (active : List DocumentValue) : Step → List DocumentValue
  | .root => active
  | .child name => active.filterMap (mappingGet name)
  | .wildcard => active.flatMap childValues
  | .index i =>
    active.flatMap fun v =>
      match v with
      | .sequence xs => (xs.get? i).toList
      | _ => []
  | .filter p => active.filter (fun v => evalPredicate v p)
  | .recursive t => active.flatMap (recursiveCollect t)

/-- Modelled from the spec: `select` (section 4.3) — fold the steps over
the active set initialised to the document root. -/
def select (ast : List Step) (doc : DocumentValue) : List DocumentValue :=
  ast.foldl evalStep [doc]

/-- A path syntax error: a message and the 0-based character offset of
the first unconsumed or unexpected token (spec section 4.1). -/
structure SynErr where
  message : String
  offset : Nat
deriving DecidableEq

/-- First character of an identifier (spec section 4.1). -/
def isIdentStart (c : Char) : Bool := c.isAlpha || c = '_'

/-- Subsequent character of an identifier (spec section 4.1). -/
def isIdentChar (c : Char) : Bool := c.isAlphanum || c = '_'

/-- Scan forward from index `i` while the predicate holds, returning the
index of the first character that fails (or the end of input). -/
def scanWhile (cs : List Char) (p : Char → Bool) : Nat → Nat → Nat
  | 0, i => i
  | fuel + 1, i =>
    match cs[i]? with
    | some c => if p c then scanWhile cs p fuel (i + 1) else i
    | none => i

/-- The substring of `cs` from index `i` (inclusive) to `j` (exclusive). -/
def sliceStr (cs : List Char) (i j : Nat) : String :=
  String.mk ((cs.drop i).take (j - i))

/-- Decimal digits to a natural number. -/
def digitsToNat (cs : List Char) : Nat :=
  cs.foldl (fun acc c => acc * 10 + (c.toNat - 48)) 0

/-- Parse an identifier `[A-Za-z_][A-Za-z0-9_]*` at index `i`. -/
def parseIdent (cs : List Char) (fuel i : Nat) : Except SynErr (String × Nat) :=
  match cs[i]? with
  | some c =>
    if isIdentStart c then
      let j := scanWhile cs isIdentChar fuel (i + 1)
      .ok (sliceStr cs i j, j)
    else .error ⟨"expected identifier", i⟩
  | none => .error ⟨"expected identifier", i⟩

/-- Signed integer value from a sign flag and magnitude. -/
def mkIntLit (neg : Bool) (n : Nat) : DocumentValue :=
  .int (if neg then -(n : Int) else (n : Int))

/-- Modelled from the spec: an unquoted numeric literal of the predicate
grammar (section 4.1): optional minus sign, digits, optional fraction.
A literal without a fraction is an `Int`, one with a fraction a `Float`. -/
def parseNumberLit (cs : List Char) (fuel i : Nat) : Except SynErr (DocumentValue × Nat) :=
  let signed := match cs[i]? with
    | some c => if c = '-' then (true, i + 1) else (false, i)
    | none => (false, i)
  let neg := signed.1
  let i0 := signed.2
  match cs[i0]? with
  | some c =>
    if c.isDigit then
      let j := scanWhile cs Char.isDigit fuel i0
      let intPart := digitsToNat ((cs.drop i0).take (j - i0))
      match cs[j]?, cs[j + 1]? with
      | some dot, some d =>
        if dot = '.' && d.isDigit then
          let k := scanWhile cs Char.isDigit fuel (j + 1)
          let fracLen := k - (j + 1)
          let frac := digitsToNat ((cs.drop (j + 1)).take fracLen)
          let mag : Rat := (intPart : Rat) + (frac : Rat) / ((10 : Rat) ^ fracLen)
          .ok (.float (if neg then -mag else mag), k)
        else .ok (mkIntLit neg intPart, j)
      | _, _ => .ok (mkIntLit neg intPart, j)
    else .error ⟨"expected number", i0⟩
  | none => .error ⟨"expected number", i0⟩

/-- Modelled from the spec: the `@.<path>` field reference of the
predicate grammar (section 4.1); `i` points just past the at sign. -/
def parseFieldPath (cs : List Char) : Nat → Nat → List String → Except SynErr (PredOperand × Nat)
  | 0, i, _ => .error ⟨"predicate too long", i⟩
  | fuel + 1, i, acc =>
    match cs[i]? with
    | some c =>
      if c = '.' then
        match parseIdent cs fuel (i + 1) with
        | .ok (name, j) => parseFieldPath cs fuel j (acc ++ [name])
        | .error e => .error e
      else if acc.isEmpty then .error ⟨"expected field path after at sign", i⟩
      else .ok (.fieldRef acc, i)
    | none =>
      if acc.isEmpty then .error ⟨"expected field path after at sign", i⟩
      else .ok (.fieldRef acc, i)

/-- Modelled from the spec: one predicate operand (section 4.1): an
`@.<path>` field reference, a quoted string, a number, or a bare token
(`true` / `false` / `null` or a bare alphanumeric string). -/
def parseOperand (cs : List Char) (fuel i0 : Nat) : Except SynErr (PredOperand × Nat) :=
  let i := scanWhile cs (· = ' ') fuel i0
  match cs[i]? with
  | none => .error ⟨"expected operand", i⟩
  | some c =>
    if c = '@' then
      parseFieldPath cs fuel (i + 1) []
    else if c.toNat = 39 || c = '"' then
      let j := scanWhile cs (fun d => !(d = c)) fuel (i + 1)
      match cs[j]? with
      | some _ => .ok (.lit (.str (sliceStr cs (i + 1) j)), j + 1)
      | none => .error ⟨"unterminated string literal", j⟩
    else if c = '-' || c.isDigit then
      match parseNumberLit cs fuel i with
      | .ok (v, j) => .ok (.lit v, j)
      | .error e => .error e
    else if isIdentStart c then
      let j := scanWhile cs isIdentChar fuel i
      let tok := sliceStr cs i j
      let v : DocumentValue :=
        if tok = "true" then .bool true
        else if tok = "false" then .bool false
        else if tok = "null" then .null
        else .str tok
      .ok (.lit v, j)
    else .error ⟨"expected operand", i⟩

/-- Parse one comparison operator of `== != < <= > >=`. -/
def parseCmpOp (cs : List Char) (fuel i0 : Nat) : Except SynErr (CmpOp × Nat) :=
  let i := scanWhile cs (· = ' ') fuel i0
  match cs[i]?, cs[i + 1]? with
  | some '=', some '=' => .ok (.eq, i + 2)
  | some '!', some '=' => .ok (.ne, i + 2)
  | some '<', some '=' => .ok (.le, i + 2)
  | some '>', some '=' => .ok (.ge, i + 2)
  | some '<', _ => .ok (.lt, i + 1)
  | some '>', _ => .ok (.gt, i + 1)
  | _, _ => .error ⟨"expected comparison operator", i⟩

/-- Parse one comparison `operand op operand`. -/
def parseComparison (cs : List Char) (fuel i : Nat) : Except SynErr (PredicateAst × Nat) :=
  match parseOperand cs fuel i with
  | .error e => .error e
  | .ok (l, j) =>
    match parseCmpOp cs fuel j with
    | .error e => .error e
    | .ok (op, k) =>
      match parseOperand cs fuel k with
      | .error e => .error e
      | .ok (r, m) => .ok (.compare op l r, m)

/-- Left-associated chain of `&&`-joined comparisons continuing `acc`. -/
def parseAndRest (cs : List Char) : Nat → Nat → PredicateAst → Except SynErr (PredicateAst × Nat)
  | 0, i, _ => .error ⟨"predicate too long", i⟩
  | fuel + 1, i0, acc =>
    let i := scanWhile cs (· = ' ') (fuel + 1) i0
    match cs[i]?, cs[i + 1]? with
    | some '&', some '&' =>
      match parseComparison cs fuel (i + 2) with
      | .error e => .error e
      | .ok (c, j) => parseAndRest cs fuel j (.and acc c)
    | _, _ => .ok (acc, i)

/-- One `&&`-level expression: a comparison followed by `&&` continuations
(`&&` binds tighter than `||`, spec section 4.1). -/
def parseAndExpr (cs : List Char) (fuel i : Nat) : Except SynErr (PredicateAst × Nat) :=
  match parseComparison cs fuel i with
  | .error e => .error e
  | .ok (c, j) => parseAndRest cs fuel j c

/-- Left-associated chain of `||`-joined `&&`-expressions continuing `acc`. -/
def parseOrRest (cs : List Char) : Nat → Nat → PredicateAst → Except SynErr (PredicateAst × Nat)
  | 0, i, _ => .error ⟨"predicate too long", i⟩
  | fuel + 1, i0, acc =>
    let i := scanWhile cs (· = ' ') (fuel + 1) i0
    match cs[i]?, cs[i + 1]? with
    | some '|', some '|' =>
      match parseAndExpr cs fuel (i + 2) with
      | .error e => .error e
      | .ok (c, j) => parseOrRest cs fuel j (.or acc c)
    | _, _ => .ok (acc, i)

/-- Modelled from the spec: the whole predicate grammar of section 4.1
(comparisons, then `&&`, then `||`). -/
def parsePredicate (cs : List Char) (fuel i : Nat) : Except SynErr (PredicateAst × Nat) :=
  match parseAndExpr cs fuel i with
  | .error e => .error e
  | .ok (c, j) => parseOrRest cs fuel j c

/-- Modelled from the spec: the step grammar of section 4.1.  One
iteration per step: `.<identifier>` child access, `.*` wildcard,
`..<identifier>` / `..*` recursive descent, `[<digits>]` index, `[*]`
wildcard, `[?(<predicate>)]` filter.  A filter applies to the children of
a preceding each-element context (sections 3 and 4.3), so it is emitted
as a wildcard expansion followed by the filter step.  Whitespace between
steps is skipped.  Any unexpected token fails with a `SynErr` whose
offset is the position of that token. -/
def parseSteps (cs : List Char) : Nat → Nat → List Step → Except SynErr (List Step)
  | 0, i, _ => .error ⟨"path too long", i⟩
  | fuel + 1, i0, acc =>
    let i := scanWhile cs (· = ' ') (fuel + 1) i0
    match cs[i]? with
    | none => .ok acc
    | some c =>
      if c = '.' then
        match cs[i + 1]? with
        | some c1 =>
          if c1 = '.' then
            match cs[i + 2]? with
            | some c2 =>
              if c2 = '*' then
                parseSteps cs fuel (i + 3) (acc ++ [.recursive none])
              else if isIdentStart c2 then
                let j := scanWhile cs isIdentChar (fuel + 1) (i + 3)
                parseSteps cs fuel j (acc ++ [.recursive (some (sliceStr cs (i + 2) j))])
              else .error ⟨"expected identifier or wildcard after recursive descent", i + 2⟩
            | none => .error ⟨"expected identifier or wildcard after recursive descent", i + 2⟩
          else if c1 = '*' then
            parseSteps cs fuel (i + 2) (acc ++ [.wildcard])
          else if isIdentStart c1 then
            let j := scanWhile cs isIdentChar (fuel + 1) (i + 2)
            parseSteps cs fuel j (acc ++ [.child (sliceStr cs (i + 1) j)])
          else .error ⟨"expected identifier after dot", i + 1⟩
        | none => .error ⟨"expected identifier after dot", i + 1⟩
      else if c = '[' then
        match cs[i + 1]? with
        | some c1 =>
          if c1 = '*' then
            match cs[i + 2]? with
            | some c2 =>
              if c2 = ']' then parseSteps cs fuel (i + 3) (acc ++ [.wildcard])
              else .error ⟨"expected closing bracket", i + 2⟩
            | none => .error ⟨"expected closing bracket", i + 2⟩
          else if c1 = '?' then
            match cs[i + 2]? with
            | some c2 =>
              if c2 = '(' then
                match parsePredicate cs (fuel + 1) (i + 3) with
                | .error e => .error e
                | .ok (p, j0) =>
                  let j := scanWhile cs (· = ' ') (fuel + 1) j0
                  match cs[j]?, cs[j + 1]? with
                  | some ')', some ']' =>
                    parseSteps cs fuel (j + 2) (acc ++ [.wildcard, .filter p])
                  | some ')', _ => .error ⟨"expected closing bracket", j + 1⟩
                  | _, _ => .error ⟨"expected closing parenthesis", j⟩
              else .error ⟨"missing predicate body", i + 2⟩
            | none => .error ⟨"missing predicate body", i + 2⟩
          else if c1.isDigit then
            let j := scanWhile cs Char.isDigit (fuel + 1) (i + 1)
            match cs[j]? with
            | some cj =>
              if cj = ']' then
                parseSteps cs fuel (j + 1)
                  (acc ++ [.index (digitsToNat ((cs.drop (i + 1)).take (j - (i + 1))))])
              else .error ⟨"expected closing bracket", j⟩
            | none => .error ⟨"expected closing bracket", j⟩
          else .error ⟨"unexpected token in brackets", i + 1⟩
        | none => .error ⟨"unexpected token in brackets", i + 1⟩
      else .error ⟨"unexpected character", i⟩

/-- Modelled from the spec: `parse` (sections 4.1 and 6) — a query starts
with a `.` or `$` root anchor; the remainder is the step sequence.  The
returned AST always begins with the `Root` step. -/
def parsePath (s : String) : Except SynErr (List Step) :=
  let cs := s.data
  match cs[0]? with
  | none => .error ⟨"empty path", 0⟩
  | some c =>
    if c = '$' then
      parseSteps cs (cs.length + 1) 1 [.root]
    else if c = '.' then
      if cs.length = 1 then .ok [.root]
      else parseSteps cs (cs.length + 1) 0 [.root]
    else .error ⟨"path must start with a dot or dollar anchor", 0⟩

/-- Modelled from the spec: the combined entry point (section 6) on an
already-built document tree: parse the path, then select; a parse failure
is reported as the `SyntaxError`, never as an empty result. -/
def queryPath (p : String) (doc : DocumentValue) : Except SynErr (List DocumentValue) :=
  match parsePath p with
  | .error e => .error e
  | .ok ast => .ok (select ast doc)

/-! ## JavaScript binding layer, embedded from `js/cli.js` and the ESM
index module.  Engine errors cross the WASM boundary as JavaScript
errors; the binding only ever looks at their string form
(`error.toString()`), so an engine error is embedded as that string. -/

/-- The option bag accepted by the `YAMLException` constructor
(`js/cli.js` lines 208 to 223).  The `mark` payload is opaque to the
constructor; it is embedded as a number. -/
structure ExceptionOptions where
  reason : Option String := none
  mark : Option Nat := none
  line : Option Nat := none
  column : Option Nat := none
  snippet : Option String := none

/-- JavaScript `x || null` on an optional number: `0` is falsy, so it
collapses to `null`. -/
def orNullNat : Option Nat → Option Nat
  | some 0 => none
  | some (n + 1) => some (n + 1)
  | none => none

/-- JavaScript `x || null` on an optional string: the empty string is
falsy, so it collapses to `null`. -/
def orNullStr : Option String → Option String
  | some s => if s = "" then none else some s
  | none => none

/-- JavaScript `x || fallback` on an optional string. -/
def orElseStr (o : Option String) (fallback : String) : String :=
  match o with
  | some r => if r = "" then fallback else r
  | none => fallback

/-- The js-yaml compatible error object built by the `YAMLException`
constructor (`js/cli.js` lines 208 to 223). -/
structure YAMLExceptionModel where
  name : String
  message : String
  reason : String
  mark : Option Nat
  line : Option Nat
  column : Option Nat
  snippet : Option String
deriving DecidableEq

/-- The `YAMLException` constructor (`js/cli.js` lines 208 to 223):
`name` is fixed, `reason` falls back to the message, and the remaining
fields use JavaScript `|| null` semantics. -/
def mkYAMLException (message : String) (options : ExceptionOptions) : YAMLExceptionModel :=
  { name := "YAMLException"
    message := message
    reason := orElseStr options.reason message
    mark := orNullNat options.mark
    line := orNullNat options.line
    column := orNullNat options.column
    snippet := orNullStr options.snippet }

/-- Case-insensitive character equality, as under the regex `i` flag. -/
def charEqCI (a b : Char) : Bool := a.toLower = b.toLower

/-- Whether `pat` occurs at position `i` of `cs`, case-insensitively. -/
def matchStrCI (cs : List Char) : List Char → Nat → Bool
  | [], _ => true
  | p :: ps, i =>
    match cs[i]? with
    | some c => charEqCI c p && matchStrCI cs ps (i + 1)
    | none => false

/-- Leftmost position where `pat`, a space and a digit occur, i.e. the
first match of the regex `pat (\d+)` with the `i` flag. -/
def findMatchFrom (cs pat : List Char) : Nat → Nat → Option Nat
  | 0, _ => none
  | fuel + 1, i =>
    if matchStrCI cs pat i && (cs[i + pat.length]? = some ' ')
        && (match cs[i + pat.length + 1]? with
            | some d => d.isDigit
            | none => false) then
      some i
    else
      match cs[i]? with
      | some _ => findMatchFrom cs pat fuel (i + 1)
      | none => none

/-- The first integer of `msg` following the word `keyword` and a space,
i.e. `msg.match(/keyword (\d+)/i)` followed by `parseInt` (`js/cli.js`
lines 262 to 266). -/
def findIntAfter (keyword : String) (msg : String) : Option Nat :=
  let cs := msg.data
  let pat := keyword.data
  match findMatchFrom cs pat (cs.length + 1) 0 with
  | some i =>
    let start := i + pat.length + 1
    let j := scanWhile cs Char.isDigit (cs.length + 1) start
    some (digitsToNat ((cs.drop start).take (j - start)))
  | none => none

/-- `handleYamlError` (`js/cli.js` lines 262 to 272): wrap an engine
error string into a `YAMLException`, extracting line and column from the
first `line <digits>` / `column <digits>` occurrences of the text. -/
def handleYamlError (errorMsg : String) : YAMLExceptionModel :=
  mkYAMLException errorMsg
    { reason := some errorMsg
      line := findIntAfter "line" errorMsg
      column := findIntAfter "column" errorMsg }

/-- `queryYAML` (`js/cli.js` lines 349 to 355): forward the engine
result; on an engine error (embedded by its string form) throw the
`YAMLException` produced by `handleYamlError` — `handleYamlError` always
throws, so the catch branch never returns a value. -/
def queryYAML (engineResult : Except String (List DocumentValue)) :
    Except YAMLExceptionModel (List DocumentValue) :=
  match engineResult with
  | .ok v => .ok v
  | .error e => .error (handleYamlError e)

/-- The module-level state of the binding layer: how many times the WASM
module has been imported, and the cached module object (`js/cli.js`
lines 175 to 189).  A module object is identified by the value of
the import counter at the moment it was imported, so re-importing
would yield a distinct identity. -/
structure WasmState where
  loads : Nat
  cache : Option Nat
deriving DecidableEq

/-- Process start: nothing imported, nothing cached (`wasmModule = null`). -/
def initialWasmState : WasmState := ⟨0, none⟩

/-- `getWasmModule` (`js/cli.js` lines 184 to 189): import and cache the
module on first call, return the cached instance afterwards. -/
def getWasmModule : WasmState → Nat × WasmState
  | ⟨loads, none⟩ => (loads, ⟨loads + 1, some loads⟩)
  | ⟨loads, some m⟩ => (m, ⟨loads, some m⟩)

/-- A run of `n` successive public API calls (`parse`, `load`, `query`,
`validate`, `parseStream`, `version` all begin by calling
`getWasmModule`), collecting the module object each call observes. -/
def runApiCalls : Nat → WasmState → List Nat × WasmState
  | 0, s => ([], s)
  | n + 1, s =>
    let r1 := getWasmModule s
    let r2 := runApiCalls n r1.2
    (r1.1 :: r2.1, r2.2)

/-! ## Concrete documents from the spec and the YAMLPath test suite
(`test/yamlpath/yamlpath.test.js`). -/

/-- First service of the sample document: name `service1`, port `8080`,
enabled, config `timeout 30` / `retries 3`. -/
def service1 : DocumentValue := .mapping [
  (.str "name", .str "service1"),
  (.str "port", .int 8080),
  (.str "enabled", .bool true),
  (.str "config", .mapping [(.str "timeout", .int 30), (.str "retries", .int 3)])]

/-- Second service of the sample document: name `service2`, port `8081`,
disabled, config `timeout 60` / `retries 5`. -/
def service2 : DocumentValue := .mapping [
  (.str "name", .str "service2"),
  (.str "port", .int 8081),
  (.str "enabled", .bool false),
  (.str "config", .mapping [(.str "timeout", .int 60), (.str "retries", .int 5)])]

/-- The sample document of `test/yamlpath/yamlpath.test.js`. -/
def sampleDoc : DocumentValue := .mapping [
  (.str "version", .float 1),
  (.str "services", .sequence [service1, service2]),
  (.str "environments", .mapping [
    (.str "dev", .mapping [
      (.str "url", .str "https://dev.example.com"),
      (.str "debug", .bool true)]),
    (.str "prod", .mapping [
      (.str "url", .str "https://prod.example.com"),
      (.str "debug", .bool false)])])]

/-- The document of the missing-data example of spec section 8:
only `environments.dev.url` is populated. -/
def envDoc : DocumentValue := .mapping [
  (.str "environments", .mapping [
    (.str "dev", .mapping [(.str "url", .str "https://dev.example.com")])])]

/-! ## Helper lemmas shared by the claim theorems. -/

/-- A step applied to an empty active set contributes nothing. -/
theorem evalStep_nil (s : Step) : evalStep [] s = [] := by
  cases s <;> rfl

/-- Once the active set is empty, the remaining steps keep it empty. -/
theorem foldl_evalStep_nil (l : List Step) : l.foldl evalStep [] = [] := by
  induction l with
  | nil => rfl
  | cons s l ih => simpa [List.foldl, evalStep_nil] using ih

mutual

/-- Pre-order traversal visits exactly one entry per document position. -/
theorem preorder_length : ∀ (v : DocumentValue), (preorder v).length = nodeCount v
  | .null => rfl
  | .bool _ => rfl
  | .int _ => rfl
  | .float _ => rfl
  | .str _ => rfl
  | .sequence xs => by
    have h := preorderList_length xs
    simp only [preorder, nodeCount, List.length_cons]
    omega
  | .mapping ps => by
    have h := preorderPairs_length ps
    simp only [preorder, nodeCount, List.length_cons]
    omega

/-- Sibling-list version of `preorder_length`. -/
theorem preorderList_length : ∀ (xs : List DocumentValue),
    (preorderList xs).length = nodeCountList xs
  | [] => rfl
  | x :: xs => by
    have h1 := preorder_length x
    have h2 := preorderList_length xs
    simp only [preorderList, nodeCountList, List.length_append]
    omega

/-- Mapping-pair version of `preorder_length`. -/
theorem preorderPairs_length : ∀ (ps : List (DocumentValue × DocumentValue)),
    (preorderPairs ps).length = nodeCountPairs ps
  | [] => rfl
  | (_, v) :: ps => by
    have h1 := preorder_length v
    have h2 := preorderPairs_length ps
    simp only [preorderPairs, nodeCountPairs, List.length_append]
    omega

end

/-- `|| null` on an optional number, stated by cases on the value. -/
theorem orNullNat_eq (o : Option Nat) :
    orNullNat o = match o with
      | some (n + 1) => some (n + 1)
      | _ => none := by
  match o with
  | none => rfl
  | some 0 => rfl
  | some (_ + 1) => rfl

/-! ## Claim theorems. -/

/-- C1: querying a path whose steps match no data returns an empty
sequence and never an error: once the active set is empty at any point
(absent mapping key, out-of-range index, non-matching node kind), every
continuation of the path still evaluates — totally, with no error
channel — to the empty sequence; and `.nonexistent.path` against the
document holding only `environments.dev.url` yields `[]`. -/
theorem c1_absent_path_empty_not_error :
    (∀ (pre post : List Step) (d : DocumentValue),
        select pre d = [] → select (pre ++ post) d = []) ∧
    queryPath ".nonexistent.path" envDoc = .ok [] := by
  constructor
  · intro pre post d h
    unfold select at h ⊢
    rw [List.foldl_append, h, foldl_evalStep_nil]
  · rfl

/-- Witness for C1 at a concrete input: the key `nope` is absent from the
sample environments document, so the longer path still yields `[]`. -/
theorem c1_absent_path_empty_not_error_witness :
    select ([Step.child "nope"] ++ [Step.child "url"]) envDoc = [] :=
  c1_absent_path_empty_not_error.1 [Step.child "nope"] [Step.child "url"] envDoc (by rfl)

/-- C2: every malformed path of the classes named by the spec (unknown
token in brackets, unbalanced brackets, unknown token, missing predicate
body, unterminated string literal) fails with a `SyntaxError` carrying a
message and the 0-based offset of the first unconsumed or unexpected
token; and a parse failure propagates through the query operation as
that error, never as a silent empty result. -/
theorem c2_malformed_path_syntax_failure :
    parsePath ".services[invalid]" = .error ⟨"unexpected token in brackets", 10⟩ ∧
    parsePath ".services[0" = .error ⟨"expected closing bracket", 11⟩ ∧
    parsePath ".services]" = .error ⟨"unexpected character", 9⟩ ∧
    parsePath ".a[?()]" = .error ⟨"expected operand", 5⟩ ∧
    parsePath ".a[?(@.b==\"x)]" = .error ⟨"unterminated string literal", 14⟩ ∧
    (∀ (s : String) (d : DocumentValue) (e : SynErr),
        parsePath s = .error e → queryPath s d = .error e) := by
  refine ⟨rfl, rfl, rfl, rfl, rfl, ?_⟩
  intro s d e h
  simp [queryPath, h]

/-- Witness for C2 at a concrete input: the malformed filter body makes
the whole query fail with the syntax error, not an empty result. -/
theorem c2_malformed_path_syntax_failure_witness :
    queryPath ".services[invalid]" sampleDoc = .error ⟨"unexpected token in brackets", 10⟩ :=
  c2_malformed_path_syntax_failure.2.2.2.2.2 ".services[invalid]" sampleDoc
    ⟨"unexpected token in brackets", 10⟩ (by rfl)

/-- C3: a field reference that cannot resolve (missing key or wrong
variant at any component) becomes the absent marker rather than an
error, and every comparison with an absent operand — for every operator,
`!=` included — evaluates to `false`. -/
theorem c3_absent_operand_comparisons_false :
    (∀ (op : CmpOp) (r : Resolved), evalCompare op .absent r = false) ∧
    (∀ (op : CmpOp) (l : Resolved), evalCompare op l .absent = false) ∧
    (∀ (name : String) (rest : List String) (v : DocumentValue),
        mappingGet name v = none → resolveField (name :: rest) v = .absent) := by
  refine ⟨?_, ?_, ?_⟩
  · intro op r; cases r <;> rfl
  · intro op l; cases l <;> rfl
  · intro name rest v h
    simp [resolveField, h]

/-- Witness for C3 at a concrete input: indexing into a scalar — the
field `enabled` of the string node — resolves to absent. -/
theorem c3_absent_operand_comparisons_false_witness :
    resolveField ("enabled" :: []) (DocumentValue.str "service1") = .absent :=
  c3_absent_operand_comparisons_false.2.2 "enabled" [] (DocumentValue.str "service1") (by rfl)

/-- C4: a wildcard step expands every active node to all mapping values
in key-insertion order and all sequence elements in element order, and
contributes nothing for every other variant; `.services[*].name` yields
`service1` then `service2`, and `.environments.*.url` yields the urls in
mapping insertion order. -/
theorem c4_wildcard_order :
    (∀ (active : List DocumentValue),
        evalStep active .wildcard = active.flatMap childValues) ∧
    (∀ (ps : List (DocumentValue × DocumentValue)),
        childValues (.mapping ps) = ps.map Prod.snd) ∧
    (∀ (xs : List DocumentValue), childValues (.sequence xs) = xs) ∧
    childValues .null = [] ∧
    (∀ (b : Bool), childValues (.bool b) = []) ∧
    (∀ (i : Int), childValues (.int i) = []) ∧
    (∀ (q : Rat), childValues (.float q) = []) ∧
    (∀ (s : String), childValues (.str s) = []) ∧
    queryPath ".services[*].name" sampleDoc = .ok [.str "service1", .str "service2"] ∧
    queryPath ".environments.*.url" sampleDoc =
      .ok [.str "https://dev.example.com", .str "https://prod.example.com"] :=
  ⟨fun _ => rfl, fun _ => rfl, fun _ => rfl, rfl, fun _ => rfl, fun _ => rfl,
    fun _ => rfl, fun _ => rfl, rfl, rfl⟩

/-- C5: a filter step keeps exactly the candidates on which the
predicate evaluates true, in their original order (the result is a
sublist of the candidate list); the two test-suite filter queries —
equality on `enabled` and the `&&`-combined pair of comparisons — select
exactly `service1` and `service2` respectively. -/
theorem c5_filter_keeps_matching :
    (∀ (p : PredicateAst) (active : List DocumentValue),
        evalStep active (.filter p) = active.filter (fun v => evalPredicate v p)) ∧
    (∀ (p : PredicateAst) (active : List DocumentValue),
        (evalStep active (.filter p)).Sublist active) ∧
    queryPath ".services[?(@.enabled==true)].name" sampleDoc = .ok [.str "service1"] ∧
    queryPath ".services[?(@.port>8080&&@.config.retries>3)].name" sampleDoc =
      .ok [.str "service2"] := by
  refine ⟨fun _ _ => rfl, ?_, rfl, rfl⟩
  intro p active
  exact List.filter_sublist active

/-- C6: recursive descent traverses each active node and its descendants
in pre-order — the node itself first, then its subtrees — emitting the
value of the named key at every mapping containing it (every member for
a wildcard); each active node is expanded independently, each document
position is visited exactly once per originating active node (the
traversal has exactly one entry per position), and `$..timeout` on the
sample document yields `[30, 60]` in document order. -/
theorem c6_recursive_descent_preorder :
    (∀ (t : Option String) (active : List DocumentValue),
        evalStep active (.recursive t) = active.flatMap (recursiveCollect t)) ∧
    (∀ (name : String) (v : DocumentValue),
        recursiveCollect (some name) v = (preorder v).filterMap (mappingGet name)) ∧
    (∀ (v : DocumentValue),
        recursiveCollect none v = (preorder v).flatMap childValues) ∧
    (∀ (v : DocumentValue), ∃ rest, preorder v = v :: rest) ∧
    (∀ (v : DocumentValue), (preorder v).length = nodeCount v) ∧
    queryPath "$..timeout" sampleDoc = .ok [.int 30, .int 60] := by
  refine ⟨fun _ _ => rfl, fun _ _ => rfl, fun _ => rfl, ?_, preorder_length, rfl⟩
  intro v
  cases v <;> exact ⟨_, rfl⟩

/-- C7: evaluating a path against a document is deterministic — the
query is a pure function of the path string and the document, so any two
evaluations on the same inputs produce the same ordered sequence. -/
theorem c7_query_deterministic :
    ∀ (p : String) (d : DocumentValue) (r₁ r₂ : Except SynErr (List DocumentValue)),
      queryPath p d = r₁ → queryPath p d = r₂ → r₁ = r₂ := by
  intro p d r₁ r₂ h₁ h₂
  rw [← h₁, ← h₂]

/-- Witness for C7 at a concrete input: two evaluations of `.version`
on the sample document agree. -/
theorem c7_query_deterministic_witness :
    (Except.ok [DocumentValue.float 1] : Except SynErr (List DocumentValue)) =
      .ok [DocumentValue.float 1] :=
  c7_query_deterministic ".version" sampleDoc (.ok [.float 1]) (.ok [.float 1])
    (by rfl) (by rfl)

/-- C8: parsing the same path string twice yields behaviorally equal
ASTs: `select` applied to either parse result produces the identical
sequence on every document. -/
theorem c8_reparse_behaviorally_equal :
    ∀ (p : String) (a₁ a₂ : List Step),
      parsePath p = .ok a₁ → parsePath p = .ok a₂ →
      ∀ (d : DocumentValue), select a₁ d = select a₂ d := by
  intro p a₁ a₂ h₁ h₂ d
  have h := h₁.symm.trans h₂
  injection h with h
  rw [h]

/-- Witness for C8 at a concrete input: the two parses of `.version`
select the same values from the sample document. -/
theorem c8_reparse_behaviorally_equal_witness :
    select [Step.root, Step.child "version"] sampleDoc =
      select [Step.root, Step.child "version"] sampleDoc :=
  c8_reparse_behaviorally_equal ".version" [Step.root, Step.child "version"]
    [Step.root, Step.child "version"] (by rfl) (by rfl) sampleDoc

/-- C9 counterexample: on the engine error string
`unexpected token at line 0, column 7`, the first integer following the
word `line` is `0`, yet the thrown `YAMLException` carries `line = null`
(JavaScript `0 || null`), contradicting the claim that the `line` field
is always that first integer. -/
theorem c9_counterexample_line_zero :
    findIntAfter "line" "unexpected token at line 0, column 7" = some 0 ∧
    (handleYamlError "unexpected token at line 0, column 7").line = none ∧
    (handleYamlError "unexpected token at line 0, column 7").column = some 7 :=
  ⟨rfl, rfl, rfl⟩

/-- C9 (amended): the wrapped exception repeats the engine error string
as both message and reason; `line` and `column` are the first integers
following the words `line` / `column` when nonzero, and `null` when no
such text occurs or that integer is `0`; the object carries no
character-offset field (`mark` is `null`); and an engine error always
surfaces as the thrown exception, never as a returned value. -/
theorem c9_error_wrapping :
    (∀ (msg : String),
        (handleYamlError msg).name = "YAMLException" ∧
        (handleYamlError msg).message = msg ∧
        (handleYamlError msg).reason = msg ∧
        (handleYamlError msg).mark = none ∧
        (handleYamlError msg).snippet = none ∧
        (handleYamlError msg).line =
          (match findIntAfter "line" msg with
            | some (n + 1) => some (n + 1)
            | _ => none) ∧
        (handleYamlError msg).column =
          (match findIntAfter "column" msg with
            | some (n + 1) => some (n + 1)
            | _ => none)) ∧
    (∀ (e : String), queryYAML (.error e) = .error (handleYamlError e)) := by
  refine ⟨?_, fun _ => rfl⟩
  intro msg
  refine ⟨rfl, rfl, ?_, rfl, rfl, ?_, ?_⟩
  · show orElseStr (some msg) msg = msg
    have h : orElseStr (some msg) msg = if msg = "" then msg else msg := rfl
    rw [h]
    split <;> rfl
  · exact orNullNat_eq (findIntAfter "line" msg)
  · exact orNullNat_eq (findIntAfter "column" msg)

/-- C10: the WASM module is loaded lazily and at most once per process:
the first call to `getWasmModule` imports and caches it, every later
call returns the identical cached object without importing again, and
any sequence of public API calls observes one single import and one
single shared module instance. -/
theorem c10_wasm_module_loaded_once :
    getWasmModule initialWasmState = (0, ⟨1, some 0⟩) ∧
    (∀ (loads m : Nat), getWasmModule ⟨loads, some m⟩ = (m, ⟨loads, some m⟩)) ∧
    (∀ (n : Nat), runApiCalls n ⟨1, some 0⟩ = (List.replicate n 0, ⟨1, some 0⟩)) ∧
    (∀ (n : Nat),
        runApiCalls (n + 1) initialWasmState = (List.replicate (n + 1) 0, ⟨1, some 0⟩)) := by
  have hsteady : ∀ (n : Nat), runApiCalls n ⟨1, some 0⟩ = (List.replicate n 0, ⟨1, some 0⟩) := by
    intro n
    induction n with
    | zero => rfl
    | succ n ih => simp [runApiCalls, getWasmModule, ih, List.replicate]
  refine ⟨rfl, fun _ _ => rfl, hsteady, ?_⟩
  intro n
  simp [runApiCalls, getWasmModule, initialWasmState, hsteady n, List.replicate]

end FastYaml
